import Mathlib

/-!
Verification of the graphing engine in `src/renderer/Render.ts` of the
calcium repository.  The viewport state, the incremental resampling logic
(`moveFunctionImage`, `zoomFunctionImage`, `calculatePoints`), the
grid-spacing adaptation (`scalingAdapt`), the wheel/touch zoom handlers and
the calculation-worker message handler are embedded as executable Lean
functions over an explicit state record.  JavaScript numbers are modelled by
exact rationals; `postMessage` calls to the calculating worker are modelled
by returning the list of messages sent.
-/

namespace Calcium

/-- Evaluation mode of a function, `FunctionInputtingType` in `@/types`. -/
inductive FunctionInputtingType where
  | NORMAL
  | POLAR
deriving DecidableEq, Repr

/-- Pan direction, `MovingDirection` in `@/types`. -/
inductive MovingDirection where
  | LEFT
  | RIGHT
deriving DecidableEq, Repr

/-- Zoom direction, `ZoomDirection` in `@/types`. -/
inductive ZoomDirection where
  | ZOOM_IN
  | ZOOM_OUT
deriving DecidableEq, Repr

/-- A compiled token tree.  Its internal structure is irrelevant to the
viewport logic (the renderer only echoes it back to the calculating worker),
so it is embedded as an opaque-to-the-viewport wrapper of a number. -/
structure RootToken where
  data : ℕ
deriving DecidableEq, Repr

/-- `RootToken.create(res.root)` rebuilds a token tree from its serialized
form; for the viewport it is the identity on the carried value. -/
def RootToken.create (r : RootToken) : RootToken := r

/-- A registered function: `Function` in `@/renderer/Function`.  The renderer
only reads `id`, `mode` and `root`. -/
structure Function where
  id : ℕ
  mode : FunctionInputtingType
  root : RootToken
deriving DecidableEq, Repr

/-- A point in coordinate space, `Point` in `@/renderer/Graphics`. -/
structure Point where
  x : ℚ
  y : ℚ
deriving DecidableEq, Repr

/-- The `operate` field of an evaluate request: append or prepend. -/
inductive Operate where
  | add
  | unshift
deriving DecidableEq, Repr

/-- One `postMessage({type: "evaluate", ...})` call sent from the renderer
to the calculating worker (`calculatePoints` in Render.ts). -/
structure EvalRequest where
  id : ℕ
  mode : FunctionInputtingType
  root : RootToken
  x : ℚ
  operate : Operate
deriving DecidableEq, Repr

/-- The mutable state of the `Render` class that the graphing logic touches:
camera (`center`, `scale`, `spacing`, `cameraPosition`), canvas width, mouse
state, pinch-zoom state, the function list and the displayed point stream.
`ratioVal` embeds the `ratio` device-pixel field. -/
structure RenderState where
  centerX : ℚ
  centerY : ℚ
  scale : ℚ
  spacing : ℚ
  canvasWidth : ℚ
  mousePointX : ℚ
  mousePointY : ℚ
  mouseDown : Bool
  mouseDX : ℚ
  mouseDY : ℚ
  cameraPosition : ℚ × ℚ
  functionList : List Function
  displayedPoints : List Point
  ratioVal : ℚ
  zoomingScale : Option ℚ
  lastZoomingSize : Option ℚ
deriving DecidableEq, Repr

/-- The module constant `delta = .01` of Render.ts. -/
def delta : ℚ := 1 / 100

/-- Number of iterations of the sampling loops of `calculatePoints` in exact
arithmetic: `for (x = b; x <= e; x += dx)` runs `⌊(e-b)/dx⌋ + 1` times when
`b ≤ e` and `dx > 0`, and zero times when `e < b`. -/
def sampleCount (b e dx : ℚ) : ℕ :=
  if e < b then 0 else (⌊(e - b) / dx⌋).toNat + 1

/-- The ascending sample abscissas `b, b+dx, b+2·dx, … ≤ e` produced by the
MovingDirection.LEFT loop of `calculatePoints`.  When `dx ≤ 0` the source
loop would not terminate (never reached: `spacing` is positive), so the
embedding returns the empty list there. -/
def sampleXsAsc (b e dx : ℚ) : List ℚ :=
  if dx ≤ 0 then [] else (List.range (sampleCount b e dx)).map (fun i : ℕ => b + (i : ℚ) * dx)

/-- The descending sample abscissas `e, e-dx, e-2·dx, … ≥ b` produced by the
MovingDirection.RIGHT loop of `calculatePoints`; same guard as
`sampleXsAsc`. -/
def sampleXsDesc (b e dx : ℚ) : List ℚ :=
  if dx ≤ 0 then [] else (List.range (sampleCount b e dx)).map (fun i : ℕ => e - (i : ℚ) * dx)

/-- `calculatePoints(func, beginX, endX, direction)`: clamps the range for
POLAR functions, then posts one evaluate request per sample, `operate: add`
ascending for LEFT and `operate: unshift` descending for RIGHT.  Returns the
list of posted requests in posting order. -/
def calculatePoints (s : RenderState) (func : Function) (beginX endX : ℚ)
    (direction : MovingDirection) : List EvalRequest :=
  let beginX := if func.mode = FunctionInputtingType.POLAR ∧ beginX < 0 then 0 else beginX
  if func.mode = FunctionInputtingType.POLAR ∧ endX < 0 then []
  else
    let dx := delta * s.spacing
    match direction with
    | MovingDirection.LEFT =>
        (sampleXsAsc beginX endX dx).map
          (fun x => ⟨func.id, func.mode, func.root, x, Operate.add⟩)
    | MovingDirection.RIGHT =>
        (sampleXsDesc beginX endX dx).map
          (fun x => ⟨func.id, func.mode, func.root, x, Operate.unshift⟩)

/-- `moveFunctionImage(direction)`: early-returns on an empty point stream;
otherwise samples the newly exposed slice for every registered function and
then refreshes `cameraPosition`.  Returns the new state and the posted
requests. -/
def moveFunctionImage (s : RenderState) (direction : MovingDirection) :
    RenderState × List EvalRequest :=
  if s.displayedPoints.length = 0 then (s, [])
  else
    let unitPx := s.scale
    let oldBegin := s.cameraPosition.1
    let newBegin := -s.centerX / unitPx
    let oldEnd := s.cameraPosition.2
    let newEnd := (s.canvasWidth - s.centerX) / unitPx
    let beginX := match direction with
      | MovingDirection.LEFT => oldEnd
      | MovingDirection.RIGHT => newBegin
    let endX := match direction with
      | MovingDirection.LEFT => newEnd
      | MovingDirection.RIGHT => oldBegin
    let reqs := s.functionList.foldl
      (fun acc func => acc ++ calculatePoints s func beginX endX direction) []
    ({ s with cameraPosition := (newBegin, newEnd) }, reqs)

/-- `zoomFunctionImage(direction)`: early-returns on an empty point stream;
ZOOM_IN clears the stream and resamples the whole new range, ZOOM_OUT samples
the two newly exposed edge ranges; then refreshes `cameraPosition`. -/
def zoomFunctionImage (s : RenderState) (direction : ZoomDirection) :
    RenderState × List EvalRequest :=
  if s.displayedPoints.length = 0 then (s, [])
  else
    let unitPx := s.scale
    let oldBegin := s.cameraPosition.1
    let newBegin := -s.centerX / unitPx
    let oldEnd := s.cameraPosition.2
    let newEnd := (s.canvasWidth - s.centerX) / unitPx
    match direction with
    | ZoomDirection.ZOOM_IN =>
        let s1 := { s with displayedPoints := [] }
        let reqs := s.functionList.foldl
          (fun acc func =>
            acc ++ calculatePoints s func newBegin newEnd MovingDirection.LEFT) []
        ({ s1 with cameraPosition := (newBegin, newEnd) }, reqs)
    | ZoomDirection.ZOOM_OUT =>
        let reqs := s.functionList.foldl
          (fun acc func =>
            acc ++ calculatePoints s func newBegin oldBegin MovingDirection.RIGHT
                ++ calculatePoints s func oldEnd newEnd MovingDirection.LEFT) []
        ({ s with cameraPosition := (newBegin, newEnd) }, reqs)

/-- `scalingAdapt()`: keeps the on-screen grid-cell width `scale * spacing`
inside the band (66, 138) by doubling/halving `spacing`, with the 2 ↔ 5
special cases. -/
def scalingAdapt (s : RenderState) : RenderState :=
  if s.scale * s.spacing ≤ 66 then
    { s with spacing := if s.spacing = 2 then 5 else s.spacing * 2 }
  else if s.scale * s.spacing ≥ 138 then
    { s with spacing := if s.spacing = 5 then 2 else s.spacing / 2 }
  else s

/-- Modelled from the spec: `Graphics.pointToCoordinates` (the `Graphics`
base class is not among the provided sources).  Per spec §3 the camera maps
pixel space to coordinate space with `visibleRange =
[-center.x/scale, (canvasWidth-center.x)/scale]`, i.e. coordinate
`x = (px - center.x)/scale`, and canvas y grows downward, i.e. coordinate
`y = (center.y - py)/scale`. -/
def pointToCoordinates (s : RenderState) (p : Point) : Point :=
  ⟨(p.x - s.centerX) / s.scale, (s.centerY - p.y) / s.scale⟩

/-- `handleWheel(dy)`: records the cursor's coordinate-space position,
adjusts `scale` by `7 / spacing`, runs `scalingAdapt`, runs
`zoomFunctionImage`, then shifts `center` so the cursor's coordinate-space
position is restored. -/
def handleWheel (s : RenderState) (dy : ℚ) : RenderState × List EvalRequest :=
  let mouseOriginPoint := pointToCoordinates s ⟨s.mousePointX, s.mousePointY⟩
  let s1 := { s with scale :=
    if dy > 0 then s.scale - 7 / s.spacing else s.scale + 7 / s.spacing }
  let s2 := scalingAdapt s1
  let zres := zoomFunctionImage s2
    (if dy > 0 then ZoomDirection.ZOOM_OUT else ZoomDirection.ZOOM_IN)
  let s3 := zres.1
  let mouseCurrentPoint := pointToCoordinates s3 ⟨s3.mousePointX, s3.mousePointY⟩
  let centerDx := mouseCurrentPoint.x - mouseOriginPoint.x
  let centerDy := mouseCurrentPoint.y - mouseOriginPoint.y
  ({ s3 with centerX := s3.centerX + centerDx * s3.scale,
             centerY := s3.centerY - centerDy * s3.scale }, zres.2)

/-- `refreshMousePoint(rect, cx, cy)`. -/
def refreshMousePoint (s : RenderState) (rectLeft rectTop cx cy : ℚ) : RenderState :=
  { s with mousePointX := cx - rectLeft, mousePointY := cy - rectTop }

/-- `handleMouseMove(rect, cx, cy, direction)`: scales the client coordinates
by the device ratio, refreshes the mouse point, and if the mouse is down
moves the center by the drag delta and pans the function image. -/
def handleMouseMove (s : RenderState) (rectLeft rectTop cx cy : ℚ)
    (direction : MovingDirection) : RenderState × List EvalRequest :=
  let cx := cx * s.ratioVal
  let cy := cy * s.ratioVal
  let s1 := refreshMousePoint s rectLeft rectTop cx cy
  if !s1.mouseDown then (s1, [])
  else
    let s2 := { s1 with centerX := s1.mousePointX - s1.mouseDX,
                        centerY := s1.mousePointY - s1.mouseDY }
    moveFunctionImage s2 direction

/-- JavaScript falsiness of a nullable number: `!x` is true for `null` and
for `0`. -/
def falsyOpt : Option ℚ → Bool
  | none => true
  | some v => v = 0

/-- `handleTouchZoom`: the source computes `zoomingSize` as the euclidean
distance between the two (ratio-scaled) touch points via `Math.sqrt`; that
distance is taken here as the input, since only its value is used.  First
pinch frame records a baseline `zoomingScale`; later frames set
`scale = zoomingSize / zoomingScale`, adapt the grid, zoom (direction from
comparison with the previous frame's distance) and record the distance. -/
def handleTouchZoom (s : RenderState) (zoomingSize : ℚ) :
    RenderState × List EvalRequest :=
  let s0 := if falsyOpt s.lastZoomingSize
    then { s with lastZoomingSize := some zoomingSize } else s
  if falsyOpt s0.zoomingScale then
    ({ s0 with zoomingScale := some (zoomingSize / s0.scale) }, [])
  else
    let s1 := { s0 with scale := zoomingSize / s0.zoomingScale.getD 0 }
    let s2 := scalingAdapt s1
    let dir := if !falsyOpt s0.lastZoomingSize ∧ s0.lastZoomingSize.getD 0 > zoomingSize
      then ZoomDirection.ZOOM_OUT else ZoomDirection.ZOOM_IN
    let zres := zoomFunctionImage s2 dir
    ({ zres.1 with lastZoomingSize := some zoomingSize }, zres.2)

/-- A message arriving from the calculating worker, dispatched by
`handleCalculatingWorkerMessaging`.  `other` stands for any message whose
`type` is none of compile / compile-and-set / evaluate. -/
inductive CalcResponse where
  | compile (id : ℕ) (mode : FunctionInputtingType) (root : RootToken)
  | compileAndSet (index : ℕ) (mode : FunctionInputtingType) (root : RootToken)
  | evaluate (mode : FunctionInputtingType) (x y : ℚ) (operate : Operate)
  | other
deriving DecidableEq, Repr

/-- The body of `drawCompleteFunction` and `fullyRefreshFunctions`: the full
visible range recomputed from the current center and scale. -/
def visibleBeginX (s : RenderState) : ℚ := -s.centerX / s.scale

/-- End of the full visible range, `(canvas.width - center.x) / unitPx`. -/
def visibleEndX (s : RenderState) : ℚ := (s.canvasWidth - s.centerX) / s.scale

/-- `fullyRefreshFunctions()`: clears the point stream and resamples every
registered function over the full visible range. -/
def fullyRefreshFunctions (s : RenderState) : RenderState × List EvalRequest :=
  let s1 := { s with displayedPoints := [] }
  (s1, s1.functionList.foldl
    (fun acc func =>
      acc ++ calculatePoints s1 func (visibleBeginX s1) (visibleEndX s1)
        MovingDirection.LEFT) [])

/-- Point construction of the evaluate branch: NORMAL keeps `(x, y)`, POLAR
converts `(θ, r)` to `(r·cos θ, r·sin θ)`.  `co`/`si` stand for
`Math.cos`/`Math.sin`, passed in as parameters. -/
def evaluatePoint (co si : ℚ → ℚ) (mode : FunctionInputtingType) (x y : ℚ) : Point :=
  match mode with
  | FunctionInputtingType.NORMAL => ⟨x, y⟩
  | FunctionInputtingType.POLAR => ⟨y * co x, y * si x⟩

/-- `handleCalculatingWorkerMessaging(e)`: dispatches on the message type.
`none` marks the runs on which the source would throw (reading `.id` of an
out-of-range `functionList.get`, or `getLast` of an empty list). -/
def handleCalculatingWorkerMessaging (co si : ℚ → ℚ) (s : RenderState)
    (res : CalcResponse) : Option (RenderState × List EvalRequest) :=
  match res with
  | CalcResponse.compile id mode root =>
      let s1 := { s with functionList :=
        s.functionList ++ [Function.mk id mode (RootToken.create root)] }
      match s1.functionList.getLast? with
      | none => none
      | some func =>
          some (s1, calculatePoints s1 func (visibleBeginX s1) (visibleEndX s1)
            MovingDirection.LEFT)
  | CalcResponse.compileAndSet index mode root =>
      match s.functionList.get? index with
      | none => none
      | some oldFunction =>
          let s1 := { s with functionList :=
            s.functionList.set index (Function.mk oldFunction.id mode (RootToken.create root)) }
          some (fullyRefreshFunctions s1)
  | CalcResponse.evaluate mode x y operate =>
      let p := evaluatePoint co si mode x y
      match operate with
      | Operate.add => some ({ s with displayedPoints := s.displayedPoints ++ [p] }, [])
      | Operate.unshift => some ({ s with displayedPoints := p :: s.displayedPoints }, [])
  | CalcResponse.other => some (s, [])

/-- The camera invariant of spec §3: the stored visible range equals the one
recomputed from the current center, scale and canvas width. -/
def cameraInv (s : RenderState) : Prop :=
  s.cameraPosition = (-s.centerX / s.scale, (s.canvasWidth - s.centerX) / s.scale)

/-- The scale value installed by `handleWheel` before grid adaptation;
`scalingAdapt` and `zoomFunctionImage` never change `scale`, so this is also
the final scale. -/
def wheelScale (s : RenderState) (dy : ℚ) : ℚ :=
  if dy > 0 then s.scale - 7 / s.spacing else s.scale + 7 / s.spacing

/-- A concrete NORMAL-mode function used for witnesses. -/
def fNormal : Function := ⟨0, FunctionInputtingType.NORMAL, ⟨0⟩⟩

/-- A concrete POLAR-mode function used for witnesses. -/
def fPolar : Function := ⟨1, FunctionInputtingType.POLAR, ⟨0⟩⟩

/-- A concrete viewport state: a 1000-px canvas centered at 500 with
100 px per unit (visible range `[-5, 5]`), the cursor at pixel 600, one
registered function and one displayed point. -/
def sBase : RenderState :=
  { centerX := 500, centerY := 500, scale := 100, spacing := 1, canvasWidth := 1000,
    mousePointX := 600, mousePointY := 500, mouseDown := true, mouseDX := 0, mouseDY := 0,
    cameraPosition := (-5, 5), functionList := [fNormal], displayedPoints := [⟨0, 0⟩],
    ratioVal := 1, zoomingScale := some 1, lastZoomingSize := some 10 }

/-- `sBase` at the grid-adaptation boundary with the special-cased spacing 2:
`scale * spacing = 33 * 2 = 66`. -/
def sOsc : RenderState := { sBase with scale := 33, spacing := 2 }

/-- `sBase` at the boundary with a non-special spacing:
`scale * spacing = 22 * 3 = 66`. -/
def s66 : RenderState := { sBase with scale := 22, spacing := 3 }

/-- A concrete state ready for a left pan: visible range was `[0, 1]`, the
center has already been dragged so that the new range is `[-1/2, 3/2]`, the
sample step is `delta * 50 = 1/2`, and the point sampled at `x = 1` is in
the stream. -/
def sPan : RenderState :=
  { centerX := 1/2, centerY := 0, scale := 1, spacing := 50, canvasWidth := 2,
    mousePointX := 0, mousePointY := 0, mouseDown := true, mouseDX := 0, mouseDY := 0,
    cameraPosition := (0, 1), functionList := [fNormal], displayedPoints := [⟨1, 1⟩],
    ratioVal := 1, zoomingScale := none, lastZoomingSize := none }

/-- `sPan` with an empty point stream (samples requested but not yet
answered). -/
def sEmptyStream : RenderState := { sPan with displayedPoints := [] }

/-! ### Lemmas about the sampling loops -/

lemma sampleXsAsc_eq_nil_of_nonpos {b e dx : ℚ} (h : dx ≤ 0) : sampleXsAsc b e dx = [] := by
  simp [sampleXsAsc, h]

lemma sampleXsDesc_eq_nil_of_nonpos {b e dx : ℚ} (h : dx ≤ 0) : sampleXsDesc b e dx = [] := by
  simp [sampleXsDesc, h]

lemma sampleCount_pos {b e dx : ℚ} (hbe : b ≤ e) : 0 < sampleCount b e dx := by
  unfold sampleCount
  rw [if_neg (not_lt.mpr hbe)]
  omega

lemma mem_sampleXsAsc {b e dx x : ℚ} (hdx : 0 < dx) (hx : x ∈ sampleXsAsc b e dx) :
    b ≤ x ∧ x ≤ e := by
  unfold sampleXsAsc at hx
  rw [if_neg (not_le.mpr hdx)] at hx
  obtain ⟨i, hi, rfl⟩ := List.mem_map.mp hx
  rw [List.mem_range] at hi
  unfold sampleCount at hi
  by_cases hbe : e < b
  · rw [if_pos hbe] at hi
    exact absurd hi (by omega)
  · rw [if_neg hbe] at hi
    push_neg at hbe
    have hq : (0 : ℚ) ≤ (e - b) / dx := div_nonneg (by linarith) hdx.le
    have hfl : (0 : ℤ) ≤ ⌊(e - b) / dx⌋ := Int.floor_nonneg.mpr hq
    have hi' : (i : ℤ) ≤ ⌊(e - b) / dx⌋ := by omega
    have hiq : (i : ℚ) ≤ (e - b) / dx := by
      calc (i : ℚ) ≤ ((⌊(e - b) / dx⌋ : ℤ) : ℚ) := by exact_mod_cast hi'
        _ ≤ (e - b) / dx := Int.floor_le _
    have himul : (i : ℚ) * dx ≤ e - b := (le_div_iff₀ hdx).mp hiq
    constructor
    · nlinarith [mul_nonneg (Nat.cast_nonneg (α := ℚ) i) hdx.le]
    · linarith

lemma mem_sampleXsDesc {b e dx x : ℚ} (hdx : 0 < dx) (hx : x ∈ sampleXsDesc b e dx) :
    b ≤ x ∧ x ≤ e := by
  unfold sampleXsDesc at hx
  rw [if_neg (not_le.mpr hdx)] at hx
  obtain ⟨i, hi, rfl⟩ := List.mem_map.mp hx
  rw [List.mem_range] at hi
  unfold sampleCount at hi
  by_cases hbe : e < b
  · rw [if_pos hbe] at hi
    exact absurd hi (by omega)
  · rw [if_neg hbe] at hi
    push_neg at hbe
    have hq : (0 : ℚ) ≤ (e - b) / dx := div_nonneg (by linarith) hdx.le
    have hfl : (0 : ℤ) ≤ ⌊(e - b) / dx⌋ := Int.floor_nonneg.mpr hq
    have hi' : (i : ℤ) ≤ ⌊(e - b) / dx⌋ := by omega
    have hiq : (i : ℚ) ≤ (e - b) / dx := by
      calc (i : ℚ) ≤ ((⌊(e - b) / dx⌋ : ℤ) : ℚ) := by exact_mod_cast hi'
        _ ≤ (e - b) / dx := Int.floor_le _
    have himul : (i : ℚ) * dx ≤ e - b := (le_div_iff₀ hdx).mp hiq
    constructor
    · linarith
    · nlinarith [mul_nonneg (Nat.cast_nonneg (α := ℚ) i) hdx.le]

lemma sampleXsAsc_pairwise {b e dx : ℚ} (hdx : 0 < dx) :
    (sampleXsAsc b e dx).Pairwise (· < ·) := by
  unfold sampleXsAsc
  rw [if_neg (not_le.mpr hdx)]
  refine List.Pairwise.map _ (fun i j hij => ?_) (List.pairwise_lt_range _)
  have hq : (i : ℚ) < j := by exact_mod_cast hij
  nlinarith

lemma sampleXsDesc_pairwise {b e dx : ℚ} (hdx : 0 < dx) :
    (sampleXsDesc b e dx).Pairwise (· > ·) := by
  unfold sampleXsDesc
  rw [if_neg (not_le.mpr hdx)]
  refine List.Pairwise.map _ (fun i j hij => ?_) (List.pairwise_lt_range _)
  have hq : (i : ℚ) < j := by exact_mod_cast hij
  simp only [gt_iff_lt]
  nlinarith

lemma self_mem_sampleXsAsc {b e dx : ℚ} (hdx : 0 < dx) (hbe : b ≤ e) :
    b ∈ sampleXsAsc b e dx := by
  unfold sampleXsAsc
  rw [if_neg (not_le.mpr hdx)]
  refine List.mem_map.mpr ⟨0, ?_, by push_cast; ring⟩
  rw [List.mem_range]
  exact sampleCount_pos hbe

/-! ### Lemmas about `calculatePoints` -/

lemma delta_spacing_pos {s : RenderState} (hsp : 0 < s.spacing) : 0 < delta * s.spacing :=
  mul_pos (by norm_num [delta]) hsp

lemma calculatePoints_left_mem {s : RenderState} {f : Function} {b e : ℚ} {r : EvalRequest}
    (hsp : 0 < s.spacing) (hr : r ∈ calculatePoints s f b e MovingDirection.LEFT) :
    r.operate = Operate.add ∧ b ≤ r.x ∧ r.x ≤ e ∧ r.id = f.id ∧ r.mode = f.mode := by
  have hdx := delta_spacing_pos hsp
  simp only [calculatePoints] at hr
  by_cases h2 : f.mode = FunctionInputtingType.POLAR ∧ e < 0
  · rw [if_pos h2] at hr
    simp at hr
  · rw [if_neg h2] at hr
    obtain ⟨x, hx, rfl⟩ := List.mem_map.mp hr
    have hb := mem_sampleXsAsc hdx hx
    refine ⟨rfl, ?_, hb.2, rfl, rfl⟩
    by_cases h1 : f.mode = FunctionInputtingType.POLAR ∧ b < 0
    · rw [if_pos h1] at hb
      linarith [h1.2, hb.1]
    · rw [if_neg h1] at hb
      exact hb.1

lemma calculatePoints_right_mem {s : RenderState} {f : Function} {b e : ℚ} {r : EvalRequest}
    (hsp : 0 < s.spacing) (hr : r ∈ calculatePoints s f b e MovingDirection.RIGHT) :
    r.operate = Operate.unshift ∧ b ≤ r.x ∧ r.x ≤ e ∧ r.id = f.id ∧ r.mode = f.mode := by
  have hdx := delta_spacing_pos hsp
  simp only [calculatePoints] at hr
  by_cases h2 : f.mode = FunctionInputtingType.POLAR ∧ e < 0
  · rw [if_pos h2] at hr
    simp at hr
  · rw [if_neg h2] at hr
    obtain ⟨x, hx, rfl⟩ := List.mem_map.mp hr
    have hb := mem_sampleXsDesc hdx hx
    refine ⟨rfl, ?_, hb.2, rfl, rfl⟩
    by_cases h1 : f.mode = FunctionInputtingType.POLAR ∧ b < 0
    · rw [if_pos h1] at hb
      linarith [h1.2, hb.1]
    · rw [if_neg h1] at hb
      exact hb.1

lemma calculatePoints_left_pairwise (s : RenderState) (f : Function) (b e : ℚ)
    (hsp : 0 < s.spacing) :
    ((calculatePoints s f b e MovingDirection.LEFT).map EvalRequest.x).Pairwise (· < ·) := by
  have hdx := delta_spacing_pos hsp
  simp only [calculatePoints]
  by_cases h2 : f.mode = FunctionInputtingType.POLAR ∧ e < 0
  · rw [if_pos h2]
    simp
  · rw [if_neg h2, List.map_map, List.pairwise_map]
    exact sampleXsAsc_pairwise hdx

lemma calculatePoints_right_pairwise (s : RenderState) (f : Function) (b e : ℚ)
    (hsp : 0 < s.spacing) :
    ((calculatePoints s f b e MovingDirection.RIGHT).map EvalRequest.x).Pairwise (· > ·) := by
  have hdx := delta_spacing_pos hsp
  simp only [calculatePoints]
  by_cases h2 : f.mode = FunctionInputtingType.POLAR ∧ e < 0
  · rw [if_pos h2]
    simp
  · rw [if_neg h2, List.map_map, List.pairwise_map]
    exact sampleXsDesc_pairwise hdx

lemma calculatePoints_left_ne_nil {s : RenderState} {f : Function} {b e : ℚ}
    (hsp : 0 < s.spacing) (hnr : ¬(f.mode = FunctionInputtingType.POLAR ∧ e < 0))
    (hbe : (if f.mode = FunctionInputtingType.POLAR ∧ b < 0 then 0 else b) ≤ e) :
    calculatePoints s f b e MovingDirection.LEFT ≠ [] := by
  have hdx := delta_spacing_pos hsp
  unfold calculatePoints
  rw [if_neg hnr]
  intro hnil
  have := self_mem_sampleXsAsc hdx hbe
  rw [List.map_eq_nil_iff] at hnil
  rw [hnil] at this
  simp at this

/-! ### Folds of appended request batches -/

lemma foldl_append_flatMap {α β : Type} (f : α → List β) (l : List α) (init : List β) :
    l.foldl (fun acc a => acc ++ f a) init = init ++ l.flatMap f := by
  induction l generalizing init with
  | nil => simp
  | cons a t ih => simp [ih, List.append_assoc]

lemma foldl_append2_flatMap {α β : Type} (f g : α → List β) (l : List α) (init : List β) :
    l.foldl (fun acc a => acc ++ f a ++ g a) init = init ++ l.flatMap (fun a => f a ++ g a) := by
  induction l generalizing init with
  | nil => simp
  | cons a t ih =>
      rw [List.foldl_cons, ih, List.flatMap_cons]
      simp [List.append_assoc]

/-! ### Field preservation of the camera operations -/

@[simp] lemma scalingAdapt_scale (s : RenderState) : (scalingAdapt s).scale = s.scale := by
  unfold scalingAdapt; split_ifs <;> rfl

@[simp] lemma scalingAdapt_centerX (s : RenderState) : (scalingAdapt s).centerX = s.centerX := by
  unfold scalingAdapt; split_ifs <;> rfl

@[simp] lemma scalingAdapt_centerY (s : RenderState) : (scalingAdapt s).centerY = s.centerY := by
  unfold scalingAdapt; split_ifs <;> rfl

@[simp] lemma scalingAdapt_canvasWidth (s : RenderState) :
    (scalingAdapt s).canvasWidth = s.canvasWidth := by
  unfold scalingAdapt; split_ifs <;> rfl

@[simp] lemma scalingAdapt_displayedPoints (s : RenderState) :
    (scalingAdapt s).displayedPoints = s.displayedPoints := by
  unfold scalingAdapt; split_ifs <;> rfl

@[simp] lemma scalingAdapt_functionList (s : RenderState) :
    (scalingAdapt s).functionList = s.functionList := by
  unfold scalingAdapt; split_ifs <;> rfl

@[simp] lemma scalingAdapt_cameraPosition (s : RenderState) :
    (scalingAdapt s).cameraPosition = s.cameraPosition := by
  unfold scalingAdapt; split_ifs <;> rfl

@[simp] lemma scalingAdapt_mousePointX (s : RenderState) :
    (scalingAdapt s).mousePointX = s.mousePointX := by
  unfold scalingAdapt; split_ifs <;> rfl

@[simp] lemma scalingAdapt_mousePointY (s : RenderState) :
    (scalingAdapt s).mousePointY = s.mousePointY := by
  unfold scalingAdapt; split_ifs <;> rfl

@[simp] lemma moveFunctionImage_fst_scale (s : RenderState) (d : MovingDirection) :
    (moveFunctionImage s d).1.scale = s.scale := by
  unfold moveFunctionImage; split <;> rfl

@[simp] lemma moveFunctionImage_fst_centerX (s : RenderState) (d : MovingDirection) :
    (moveFunctionImage s d).1.centerX = s.centerX := by
  unfold moveFunctionImage; split <;> rfl

@[simp] lemma moveFunctionImage_fst_centerY (s : RenderState) (d : MovingDirection) :
    (moveFunctionImage s d).1.centerY = s.centerY := by
  unfold moveFunctionImage; split <;> rfl

@[simp] lemma moveFunctionImage_fst_canvasWidth (s : RenderState) (d : MovingDirection) :
    (moveFunctionImage s d).1.canvasWidth = s.canvasWidth := by
  unfold moveFunctionImage; split <;> rfl

@[simp] lemma moveFunctionImage_fst_spacing (s : RenderState) (d : MovingDirection) :
    (moveFunctionImage s d).1.spacing = s.spacing := by
  unfold moveFunctionImage; split <;> rfl

@[simp] lemma moveFunctionImage_fst_displayedPoints (s : RenderState) (d : MovingDirection) :
    (moveFunctionImage s d).1.displayedPoints = s.displayedPoints := by
  unfold moveFunctionImage; split <;> rfl

@[simp] lemma moveFunctionImage_fst_functionList (s : RenderState) (d : MovingDirection) :
    (moveFunctionImage s d).1.functionList = s.functionList := by
  unfold moveFunctionImage; split <;> rfl

@[simp] lemma zoomFunctionImage_fst_scale (s : RenderState) (z : ZoomDirection) :
    (zoomFunctionImage s z).1.scale = s.scale := by
  cases z <;> (unfold zoomFunctionImage; split <;> rfl)

@[simp] lemma zoomFunctionImage_fst_centerX (s : RenderState) (z : ZoomDirection) :
    (zoomFunctionImage s z).1.centerX = s.centerX := by
  cases z <;> (unfold zoomFunctionImage; split <;> rfl)

@[simp] lemma zoomFunctionImage_fst_centerY (s : RenderState) (z : ZoomDirection) :
    (zoomFunctionImage s z).1.centerY = s.centerY := by
  cases z <;> (unfold zoomFunctionImage; split <;> rfl)

@[simp] lemma zoomFunctionImage_fst_canvasWidth (s : RenderState) (z : ZoomDirection) :
    (zoomFunctionImage s z).1.canvasWidth = s.canvasWidth := by
  cases z <;> (unfold zoomFunctionImage; split <;> rfl)

@[simp] lemma zoomFunctionImage_fst_spacing (s : RenderState) (z : ZoomDirection) :
    (zoomFunctionImage s z).1.spacing = s.spacing := by
  cases z <;> (unfold zoomFunctionImage; split <;> rfl)

@[simp] lemma zoomFunctionImage_fst_functionList (s : RenderState) (z : ZoomDirection) :
    (zoomFunctionImage s z).1.functionList = s.functionList := by
  cases z <;> (unfold zoomFunctionImage; split <;> rfl)

@[simp] lemma zoomFunctionImage_fst_mousePointX (s : RenderState) (z : ZoomDirection) :
    (zoomFunctionImage s z).1.mousePointX = s.mousePointX := by
  cases z <;> (unfold zoomFunctionImage; split <;> rfl)

@[simp] lemma zoomFunctionImage_fst_mousePointY (s : RenderState) (z : ZoomDirection) :
    (zoomFunctionImage s z).1.mousePointY = s.mousePointY := by
  cases z <;> (unfold zoomFunctionImage; split <;> rfl)

/-- After a pan with a nonempty point stream, `cameraPosition` is recomputed
from the current center and scale. -/
lemma moveFunctionImage_camera (s : RenderState) (d : MovingDirection)
    (hne : s.displayedPoints ≠ []) :
    (moveFunctionImage s d).1.cameraPosition =
      (-s.centerX / s.scale, (s.canvasWidth - s.centerX) / s.scale) := by
  unfold moveFunctionImage
  rw [if_neg (by simpa using hne)]

/-- After a zoom with a nonempty point stream, `cameraPosition` is recomputed
from the current center and scale. -/
lemma zoomFunctionImage_camera (s : RenderState) (z : ZoomDirection)
    (hne : s.displayedPoints ≠ []) :
    (zoomFunctionImage s z).1.cameraPosition =
      (-s.centerX / s.scale, (s.canvasWidth - s.centerX) / s.scale) := by
  cases z <;> (unfold zoomFunctionImage; rw [if_neg (by simpa using hne)])

/-- On a zoom with a nonempty point stream, ZOOM_IN clears the point
stream. -/
lemma zoomFunctionImage_in_displayedPoints (s : RenderState)
    (hne : s.displayedPoints ≠ []) :
    (zoomFunctionImage s ZoomDirection.ZOOM_IN).1.displayedPoints = [] := by
  unfold zoomFunctionImage
  rw [if_neg (by simpa using hne)]

/-- ZOOM_OUT leaves the point stream unchanged. -/
@[simp] lemma zoomFunctionImage_out_displayedPoints (s : RenderState) :
    (zoomFunctionImage s ZoomDirection.ZOOM_OUT).1.displayedPoints = s.displayedPoints := by
  unfold zoomFunctionImage; split <;> rfl

/-! ### Request lists posted by pans and zooms -/

/-- A left pan with a nonempty stream samples `[oldEnd, newEnd]` ascending,
one batch per registered function, in list order. -/
lemma moveFunctionImage_left_reqs (s : RenderState) (hne : s.displayedPoints ≠ []) :
    (moveFunctionImage s MovingDirection.LEFT).2 =
      s.functionList.flatMap (fun func =>
        calculatePoints s func s.cameraPosition.2 ((s.canvasWidth - s.centerX) / s.scale)
          MovingDirection.LEFT) := by
  unfold moveFunctionImage
  rw [if_neg (by simpa using hne)]
  exact foldl_append_flatMap _ _ _

/-- A right pan with a nonempty stream samples `[newBegin, oldBegin]`
descending, one batch per registered function, in list order. -/
lemma moveFunctionImage_right_reqs (s : RenderState) (hne : s.displayedPoints ≠ []) :
    (moveFunctionImage s MovingDirection.RIGHT).2 =
      s.functionList.flatMap (fun func =>
        calculatePoints s func (-s.centerX / s.scale) s.cameraPosition.1
          MovingDirection.RIGHT) := by
  unfold moveFunctionImage
  rw [if_neg (by simpa using hne)]
  exact foldl_append_flatMap _ _ _

/-- A zoom-in with a nonempty stream resamples the whole new visible range,
ascending, one batch per registered function. -/
lemma zoomFunctionImage_in_reqs (s : RenderState) (hne : s.displayedPoints ≠ []) :
    (zoomFunctionImage s ZoomDirection.ZOOM_IN).2 =
      s.functionList.flatMap (fun func =>
        calculatePoints s func (-s.centerX / s.scale) ((s.canvasWidth - s.centerX) / s.scale)
          MovingDirection.LEFT) := by
  unfold zoomFunctionImage
  rw [if_neg (by simpa using hne)]
  exact foldl_append_flatMap _ _ _

/-- A zoom-out with a nonempty stream samples the two newly exposed edge
ranges per registered function: `[newBegin, oldBegin]` descending (prepends)
then `[oldEnd, newEnd]` ascending (appends). -/
lemma zoomFunctionImage_out_reqs (s : RenderState) (hne : s.displayedPoints ≠ []) :
    (zoomFunctionImage s ZoomDirection.ZOOM_OUT).2 =
      s.functionList.flatMap (fun func =>
        calculatePoints s func (-s.centerX / s.scale) s.cameraPosition.1
          MovingDirection.RIGHT ++
        calculatePoints s func s.cameraPosition.2 ((s.canvasWidth - s.centerX) / s.scale)
          MovingDirection.LEFT) := by
  unfold zoomFunctionImage
  rw [if_neg (by simpa using hne)]
  exact foldl_append2_flatMap _ _ _ _

/-! ### The wheel-zoom handler -/

@[simp] lemma handleWheel_fst_scale (s : RenderState) (dy : ℚ) :
    (handleWheel s dy).1.scale = wheelScale s dy := by
  unfold handleWheel wheelScale
  simp only [zoomFunctionImage_fst_scale, scalingAdapt_scale]

@[simp] lemma handleWheel_fst_mousePointX (s : RenderState) (dy : ℚ) :
    (handleWheel s dy).1.mousePointX = s.mousePointX := by
  unfold handleWheel
  simp only [zoomFunctionImage_fst_mousePointX, scalingAdapt_mousePointX]

@[simp] lemma handleWheel_fst_mousePointY (s : RenderState) (dy : ℚ) :
    (handleWheel s dy).1.mousePointY = s.mousePointY := by
  unfold handleWheel
  simp only [zoomFunctionImage_fst_mousePointY, scalingAdapt_mousePointY]

@[simp] lemma handleWheel_fst_canvasWidth (s : RenderState) (dy : ℚ) :
    (handleWheel s dy).1.canvasWidth = s.canvasWidth := by
  unfold handleWheel
  simp only [zoomFunctionImage_fst_canvasWidth, scalingAdapt_canvasWidth]

/-- The recentering step of `handleWheel`, spelled out on the x axis. -/
lemma handleWheel_fst_centerX (s : RenderState) (dy : ℚ) :
    (handleWheel s dy).1.centerX = s.centerX +
      ((s.mousePointX - s.centerX) / wheelScale s dy -
       (s.mousePointX - s.centerX) / s.scale) * wheelScale s dy := by
  unfold handleWheel pointToCoordinates wheelScale
  simp only [zoomFunctionImage_fst_scale, scalingAdapt_scale,
    zoomFunctionImage_fst_centerX, scalingAdapt_centerX,
    zoomFunctionImage_fst_mousePointX, scalingAdapt_mousePointX]

/-- The recentering step of `handleWheel`, spelled out on the y axis. -/
lemma handleWheel_fst_centerY (s : RenderState) (dy : ℚ) :
    (handleWheel s dy).1.centerY = s.centerY -
      ((s.centerY - s.mousePointY) / wheelScale s dy -
       (s.centerY - s.mousePointY) / s.scale) * wheelScale s dy := by
  unfold handleWheel pointToCoordinates wheelScale
  simp only [zoomFunctionImage_fst_scale, scalingAdapt_scale,
    zoomFunctionImage_fst_centerY, scalingAdapt_centerY,
    zoomFunctionImage_fst_mousePointY, scalingAdapt_mousePointY]

/-- With a nonempty stream, the wheel handler's `zoomFunctionImage` call
stores the camera range computed from the center as it is before the final
recentering shift. -/
lemma handleWheel_fst_cameraPosition (s : RenderState) (dy : ℚ)
    (hne : s.displayedPoints ≠ []) :
    (handleWheel s dy).1.cameraPosition =
      (-s.centerX / wheelScale s dy, (s.canvasWidth - s.centerX) / wheelScale s dy) := by
  have h : (handleWheel s dy).1.cameraPosition =
      (zoomFunctionImage (scalingAdapt { s with scale := wheelScale s dy })
        (if dy > 0 then ZoomDirection.ZOOM_OUT else ZoomDirection.ZOOM_IN)).1.cameraPosition :=
    rfl
  rw [h, zoomFunctionImage_camera _ _ (by simpa using hne)]
  simp

/-- Elements of an ascending sample list never lie below the loop start. -/
lemma sampleXsAsc_lower {b e dx x : ℚ} (hx : x ∈ sampleXsAsc b e dx) : b ≤ x := by
  by_cases hdx : dx ≤ 0
  · rw [sampleXsAsc_eq_nil_of_nonpos hdx] at hx
    simp at hx
  · exact (mem_sampleXsAsc (not_le.mp hdx) hx).1

/-- Elements of a descending sample list never lie below the loop's lower
bound. -/
lemma sampleXsDesc_lower {b e dx x : ℚ} (hx : x ∈ sampleXsDesc b e dx) : b ≤ x := by
  by_cases hdx : dx ≤ 0
  · rw [sampleXsDesc_eq_nil_of_nonpos hdx] at hx
    simp at hx
  · exact (mem_sampleXsDesc (not_le.mp hdx) hx).1

/-- `fullyRefreshFunctions` clears the point stream. -/
lemma fullyRefreshFunctions_fst (s : RenderState) :
    (fullyRefreshFunctions s).1 = { s with displayedPoints := [] } := rfl

/-- The requests posted by `fullyRefreshFunctions`: one full-visible-range
ascending batch per registered function, in list order. -/
lemma fullyRefreshFunctions_snd (s : RenderState) :
    (fullyRefreshFunctions s).2 =
      ({ s with displayedPoints := [] } : RenderState).functionList.flatMap (fun func =>
        calculatePoints { s with displayedPoints := [] } func
          (visibleBeginX { s with displayedPoints := [] })
          (visibleEndX { s with displayedPoints := [] }) MovingDirection.LEFT) := by
  dsimp only [fullyRefreshFunctions]
  rw [foldl_append_flatMap, List.nil_append]

/-! ### Claims -/

/-- C4: one call to `scalingAdapt` with `scale * spacing ≤ 66` sets spacing
to 5 when it was 2 and doubles it otherwise; with `scale * spacing ≥ 138` it
sets spacing to 2 when it was 5 and halves it otherwise; in all other cases
it leaves spacing unchanged. -/
theorem c4_scalingAdapt_cases (s : RenderState) :
    (s.scale * s.spacing ≤ 66 →
      (scalingAdapt s).spacing = if s.spacing = 2 then 5 else s.spacing * 2) ∧
    (s.scale * s.spacing ≥ 138 →
      (scalingAdapt s).spacing = if s.spacing = 5 then 2 else s.spacing / 2) ∧
    (66 < s.scale * s.spacing → s.scale * s.spacing < 138 →
      (scalingAdapt s).spacing = s.spacing) := by
  refine ⟨fun h => ?_, fun h => ?_, fun h h' => ?_⟩
  · unfold scalingAdapt
    rw [if_pos h]
  · unfold scalingAdapt
    rw [if_neg (by linarith), if_pos h]
  · unfold scalingAdapt
    rw [if_neg (by linarith), if_neg (by linarith)]

/-- Witness for C4: at `scale = 33`, `spacing = 2` the product is 66 and one
adaptation sets spacing to 5. -/
theorem c4_witness : (scalingAdapt sOsc).spacing = 5 := by
  have h := (c4_scalingAdapt_cases sOsc).1 (by norm_num [sOsc, sBase])
  rw [h]
  norm_num [sOsc, sBase]

/-- C5 counterexample: at `scale = 33`, `spacing = 2` (product exactly 66)
the spacing oscillates 2 → 5 → 2 on repeated applications, so the claim that
after the first adjustment further applications leave spacing fixed is
false. -/
theorem c5_counterexample :
    sOsc.scale * sOsc.spacing = 66 ∧
    (scalingAdapt (scalingAdapt sOsc)).spacing ≠ (scalingAdapt sOsc).spacing := by
  have h1 : scalingAdapt sOsc = { sOsc with spacing := 5 } := by
    unfold scalingAdapt
    rw [if_pos (by norm_num [sOsc, sBase]), if_pos (by norm_num [sOsc, sBase])]
  have h2 : scalingAdapt { sOsc with spacing := 5 } = { sOsc with spacing := 2 } := by
    unfold scalingAdapt
    rw [if_neg (by norm_num [sOsc, sBase]), if_pos (by norm_num [sOsc, sBase]),
      if_pos (by norm_num)]
  refine ⟨by norm_num [sOsc, sBase], ?_⟩
  rw [h1, h2]
  norm_num

/-- C5 (amended): at the boundary `scale * spacing = 66` with `spacing ≠ 2`,
the first adaptation doubles spacing (product 132, strictly inside the band),
and every further application is the identity; with `spacing = 2` the 2 ↔ 5
special case overshoots to product 165 ≥ 138 and the spacing oscillates. -/
theorem c5_amended_boundary_stable (s : RenderState) (h66 : s.scale * s.spacing = 66)
    (h2 : s.spacing ≠ 2) :
    ∀ n : ℕ, scalingAdapt^[n + 1] s = scalingAdapt s := by
  have hstep : scalingAdapt s = { s with spacing := s.spacing * 2 } := by
    unfold scalingAdapt
    rw [if_pos (le_of_eq h66), if_neg h2]
  have hprod : ({ s with spacing := s.spacing * 2 } : RenderState).scale *
      ({ s with spacing := s.spacing * 2 } : RenderState).spacing = 132 := by
    show s.scale * (s.spacing * 2) = 132
    nlinarith [h66]
  have hfix : scalingAdapt (scalingAdapt s) = scalingAdapt s := by
    rw [hstep]
    unfold scalingAdapt
    rw [if_neg (by rw [hprod]; norm_num), if_neg (by rw [hprod]; norm_num)]
  intro n
  induction n with
  | zero => rfl
  | succ n ih =>
      rw [Function.iterate_succ_apply', ih, hfix]

/-- Witness for C5 (amended): at `scale = 22`, `spacing = 3` the product is
66 and a second application changes nothing. -/
theorem c5_witness : scalingAdapt^[2] s66 = scalingAdapt s66 :=
  c5_amended_boundary_stable s66 (by norm_num [s66, sBase]) (by norm_num [s66, sBase]) 1

/-- C8: a worker message whose type is none of compile, compile-and-set or
evaluate leaves the state (function list and point stream included)
unchanged, posts nothing, and does not fail. -/
theorem c8_unknown_message_ignored (co si : ℚ → ℚ) (s : RenderState) :
    handleCalculatingWorkerMessaging co si s CalcResponse.other = some (s, []) := rfl

/-- C9: for a POLAR function, `calculatePoints` never requests a negative
abscissa: a negative `beginX` is clamped to 0, and a negative `endX` aborts
the whole batch. -/
theorem c9_polar_nonneg (s : RenderState) (f : Function) (b e : ℚ)
    (dir : MovingDirection) (hm : f.mode = FunctionInputtingType.POLAR) :
    (∀ r ∈ calculatePoints s f b e dir, 0 ≤ r.x) ∧
    (b < 0 → calculatePoints s f b e dir = calculatePoints s f 0 e dir) ∧
    (e < 0 → calculatePoints s f b e dir = []) := by
  cases dir
  case LEFT =>
    refine ⟨?_, ?_, ?_⟩
    · intro r hr
      simp only [calculatePoints] at hr
      by_cases h2 : f.mode = FunctionInputtingType.POLAR ∧ e < 0
      · rw [if_pos h2] at hr
        simp at hr
      · rw [if_neg h2] at hr
        obtain ⟨x, hx, rfl⟩ := List.mem_map.mp hr
        have hlow := sampleXsAsc_lower hx
        by_cases h1 : f.mode = FunctionInputtingType.POLAR ∧ b < 0
        · rw [if_pos h1] at hlow
          exact hlow
        · rw [if_neg h1] at hlow
          have hb : ¬ b < 0 := fun hb => h1 ⟨hm, hb⟩
          have : (0 : ℚ) ≤ b := not_lt.mp hb
          exact le_trans this hlow
    · intro hb
      simp only [calculatePoints]
      by_cases h2 : f.mode = FunctionInputtingType.POLAR ∧ e < 0
      · rw [if_pos h2, if_pos h2]
      · rw [if_neg h2, if_neg h2, if_pos ⟨hm, hb⟩]
        simp
    · intro he
      simp only [calculatePoints]
      rw [if_pos ⟨hm, he⟩]
  case RIGHT =>
    refine ⟨?_, ?_, ?_⟩
    · intro r hr
      simp only [calculatePoints] at hr
      by_cases h2 : f.mode = FunctionInputtingType.POLAR ∧ e < 0
      · rw [if_pos h2] at hr
        simp at hr
      · rw [if_neg h2] at hr
        obtain ⟨x, hx, rfl⟩ := List.mem_map.mp hr
        have hlow := sampleXsDesc_lower hx
        by_cases h1 : f.mode = FunctionInputtingType.POLAR ∧ b < 0
        · rw [if_pos h1] at hlow
          exact hlow
        · rw [if_neg h1] at hlow
          have hb : ¬ b < 0 := fun hb => h1 ⟨hm, hb⟩
          have : (0 : ℚ) ≤ b := not_lt.mp hb
          exact le_trans this hlow
    · intro hb
      simp only [calculatePoints]
      by_cases h2 : f.mode = FunctionInputtingType.POLAR ∧ e < 0
      · rw [if_pos h2, if_pos h2]
      · rw [if_neg h2, if_neg h2, if_pos ⟨hm, hb⟩]
        simp
    · intro he
      simp only [calculatePoints]
      rw [if_pos ⟨hm, he⟩]

/-- Witness for C9: a POLAR batch over `[-1, 2]`. -/
theorem c9_witness :
    (∀ r ∈ calculatePoints sBase fPolar (-1) 2 MovingDirection.LEFT, 0 ≤ r.x) ∧
    ((-1 : ℚ) < 0 → calculatePoints sBase fPolar (-1) 2 MovingDirection.LEFT =
      calculatePoints sBase fPolar 0 2 MovingDirection.LEFT) ∧
    ((2 : ℚ) < 0 → calculatePoints sBase fPolar (-1) 2 MovingDirection.LEFT = []) :=
  c9_polar_nonneg sBase fPolar (-1) 2 MovingDirection.LEFT rfl

/-- C10: with an empty point stream both `moveFunctionImage` and
`zoomFunctionImage` return immediately: the state (in particular
`cameraPosition`) is unchanged and no evaluate request is posted, for every
direction. -/
theorem c10_empty_stream_noop (s : RenderState) (h : s.displayedPoints = []) :
    (∀ d, moveFunctionImage s d = (s, [])) ∧
    (∀ z, zoomFunctionImage s z = (s, [])) := by
  have h0 : s.displayedPoints.length = 0 := by rw [h]; rfl
  constructor
  · intro d
    unfold moveFunctionImage
    rw [if_pos h0]
  · intro z
    unfold zoomFunctionImage
    rw [if_pos h0]

/-- Witness for C10: a concrete state with registered functions but an empty
stream. -/
theorem c10_witness :
    (∀ d, moveFunctionImage sEmptyStream d = (sEmptyStream, [])) ∧
    (∀ z, zoomFunctionImage sEmptyStream z = (sEmptyStream, [])) :=
  c10_empty_stream_noop sEmptyStream rfl

/-- C1 counterexample: at `sBase` a wheel event stores the camera range
computed before the final cursor-recentering shift of `center.x`
(500 → 507 while the stored range stays `(-500/93, 500/93)`), so the claimed
invariant does not hold after the zoom. -/
theorem c1_counterexample : ¬ cameraInv (handleWheel sBase 1).1 := by
  intro h
  simp only [cameraInv] at h
  rw [handleWheel_fst_cameraPosition sBase 1 (by simp [sBase]),
    handleWheel_fst_centerX, handleWheel_fst_scale, handleWheel_fst_canvasWidth,
    Prod.mk.injEq] at h
  obtain ⟨h1, h2⟩ := h
  have hws : wheelScale sBase 1 = 93 := by
    unfold wheelScale
    rw [if_pos (by norm_num)]
    norm_num [sBase]
  rw [hws] at h1
  norm_num [sBase] at h1

/-- C1 (amended): with a nonempty point stream, `cameraPosition` equals
`(-center.x/scale, (canvasWidth-center.x)/scale)` after every pan
(`moveFunctionImage`, also via `handleMouseMove` with the mouse down), after
every `zoomFunctionImage`, and after every pinch-zoom frame that triggers a
zoom; after `handleWheel` the stored range is instead computed from the
center as it was before the final cursor-recentering shift, so the equality
is with the pre-recentering `center.x`. -/
theorem c1_amended_cameraInv (s : RenderState) (hne : s.displayedPoints ≠ []) :
    (∀ d, cameraInv (moveFunctionImage s d).1) ∧
    (∀ z, cameraInv (zoomFunctionImage s z).1) ∧
    (∀ rectLeft rectTop cx cy d, s.mouseDown = true →
        cameraInv (handleMouseMove s rectLeft rectTop cx cy d).1) ∧
    (∀ zoomingSize, falsyOpt s.zoomingScale = false →
        cameraInv (handleTouchZoom s zoomingSize).1) ∧
    (∀ dy, (handleWheel s dy).1.cameraPosition =
        (-s.centerX / (handleWheel s dy).1.scale,
         (s.canvasWidth - s.centerX) / (handleWheel s dy).1.scale)) := by
  refine ⟨fun d => ?_, fun z => ?_, fun rectLeft rectTop cx cy d hmd => ?_,
    fun zoomingSize hguard => ?_, fun dy => ?_⟩
  · simp only [cameraInv]
    rw [moveFunctionImage_camera s d hne]
    simp
  · simp only [cameraInv]
    rw [zoomFunctionImage_camera s z hne]
    simp
  · unfold handleMouseMove refreshMousePoint
    simp only [hmd, Bool.not_true, Bool.false_eq_true, if_false]
    simp only [cameraInv]
    rw [moveFunctionImage_camera _ d (by simpa using hne)]
    simp
  · unfold handleTouchZoom
    by_cases hlz : falsyOpt s.lastZoomingSize = true
    · rw [if_pos hlz, if_neg (by simp [hguard])]
      simp only [cameraInv]
      rw [zoomFunctionImage_camera _ _ (by simpa using hne)]
      simp
    · rw [if_neg hlz, if_neg (by simp [hguard])]
      simp only [cameraInv]
      rw [zoomFunctionImage_camera _ _ (by simpa using hne)]
      simp
  · rw [handleWheel_fst_cameraPosition s dy hne, handleWheel_fst_scale]

/-- Witness for C1 (amended): the pan clause at `sBase`. -/
theorem c1_witness : cameraInv (moveFunctionImage sBase MovingDirection.LEFT).1 :=
  (c1_amended_cameraInv sBase (by simp [sBase])).1 MovingDirection.LEFT

/-- C2 counterexample: at `sPan` the previous visible range was `[0, 1]` and
the point sampled at `x = 1` is already in the stream; the left pan's first
request is again at `x = oldEnd = 1`, so the boundary sample is recomputed. -/
theorem c2_counterexample :
    sPan.cameraPosition.2 = 1 ∧
    (1 : ℚ) ∈ sPan.displayedPoints.map Point.x ∧
    (1 : ℚ) ∈ (moveFunctionImage sPan MovingDirection.LEFT).2.map EvalRequest.x := by
  refine ⟨rfl, by simp [sPan], ?_⟩
  rw [moveFunctionImage_left_reqs sPan (by simp [sPan])]
  have hlist : sPan.functionList = [fNormal] := rfl
  rw [hlist, List.flatMap_cons, List.flatMap_nil, List.append_nil]
  have hb : sPan.cameraPosition.2 = (1 : ℚ) := rfl
  have he : (sPan.canvasWidth - sPan.centerX) / sPan.scale = (3 / 2 : ℚ) := by
    norm_num [sPan]
  rw [hb, he]
  simp only [calculatePoints]
  rw [if_neg (by simp [fNormal]), List.map_map]
  have hcl : (if fNormal.mode = FunctionInputtingType.POLAR ∧ (1 : ℚ) < 0
      then (0 : ℚ) else 1) = 1 := by simp [fNormal]
  rw [hcl]
  have hdx : delta * sPan.spacing = (1 / 2 : ℚ) := by norm_num [delta, sPan]
  rw [hdx]
  exact List.mem_map.mpr ⟨1, self_mem_sampleXsAsc (by norm_num) (by norm_num), rfl⟩

/-- C2 (amended): with a nonempty stream and positive spacing, a left pan
appends ascending samples of `[oldEnd, newEnd]` and a right pan prepends
descending samples of `[newBegin, oldBegin]`, one batch per registered
function; no stored point is removed and no request falls strictly inside
the old visible range — but the batch starts exactly at the shared boundary
(`oldEnd` resp. `oldBegin`), so that one sample may coincide with a point
already in the stream. -/
theorem c2_amended_pan_slices (s : RenderState) (hne : s.displayedPoints ≠ [])
    (hsp : 0 < s.spacing) :
    ((moveFunctionImage s MovingDirection.LEFT).1.displayedPoints = s.displayedPoints ∧
     (moveFunctionImage s MovingDirection.RIGHT).1.displayedPoints = s.displayedPoints) ∧
    ((moveFunctionImage s MovingDirection.LEFT).2 =
      s.functionList.flatMap (fun func => calculatePoints s func s.cameraPosition.2
        ((s.canvasWidth - s.centerX) / s.scale) MovingDirection.LEFT)) ∧
    (∀ r ∈ (moveFunctionImage s MovingDirection.LEFT).2,
      r.operate = Operate.add ∧ s.cameraPosition.2 ≤ r.x ∧
      r.x ≤ (s.canvasWidth - s.centerX) / s.scale) ∧
    (∀ func b e, ((calculatePoints s func b e MovingDirection.LEFT).map
      EvalRequest.x).Pairwise (· < ·)) ∧
    ((moveFunctionImage s MovingDirection.RIGHT).2 =
      s.functionList.flatMap (fun func => calculatePoints s func (-s.centerX / s.scale)
        s.cameraPosition.1 MovingDirection.RIGHT)) ∧
    (∀ r ∈ (moveFunctionImage s MovingDirection.RIGHT).2,
      r.operate = Operate.unshift ∧ -s.centerX / s.scale ≤ r.x ∧
      r.x ≤ s.cameraPosition.1) ∧
    (∀ func b e, ((calculatePoints s func b e MovingDirection.RIGHT).map
      EvalRequest.x).Pairwise (· > ·)) := by
  refine ⟨⟨by simp, by simp⟩, moveFunctionImage_left_reqs s hne, ?_,
    fun func b e => calculatePoints_left_pairwise s func b e hsp,
    moveFunctionImage_right_reqs s hne, ?_,
    fun func b e => calculatePoints_right_pairwise s func b e hsp⟩
  · intro r hr
    rw [moveFunctionImage_left_reqs s hne] at hr
    obtain ⟨func, hf, hrf⟩ := List.mem_flatMap.mp hr
    have hprops := calculatePoints_left_mem hsp hrf
    exact ⟨hprops.1, hprops.2.1, hprops.2.2.1⟩
  · intro r hr
    rw [moveFunctionImage_right_reqs s hne] at hr
    obtain ⟨func, hf, hrf⟩ := List.mem_flatMap.mp hr
    have hprops := calculatePoints_right_mem hsp hrf
    exact ⟨hprops.1, hprops.2.1, hprops.2.2.1⟩

/-- Witness for C2 (amended): the no-discard clause at `sPan`. -/
theorem c2_witness :
    (moveFunctionImage sPan MovingDirection.LEFT).1.displayedPoints = sPan.displayedPoints ∧
    (moveFunctionImage sPan MovingDirection.RIGHT).1.displayedPoints = sPan.displayedPoints :=
  (c2_amended_pan_slices sPan (by simp [sPan]) (by norm_num [sPan])).1

/-- C3 counterexample: with a registered function but a not-yet-filled point
stream (samples still in flight), a zoom-in issues no request at all even
though a full resample of the new range would be nonempty. -/
theorem c3_counterexample :
    sEmptyStream.functionList ≠ [] ∧
    (zoomFunctionImage sEmptyStream ZoomDirection.ZOOM_IN).2 = [] ∧
    calculatePoints sEmptyStream fNormal (-sEmptyStream.centerX / sEmptyStream.scale)
      ((sEmptyStream.canvasWidth - sEmptyStream.centerX) / sEmptyStream.scale)
      MovingDirection.LEFT ≠ [] := by
  refine ⟨by simp [sEmptyStream, sPan], ?_, ?_⟩
  · unfold zoomFunctionImage
    rw [if_pos (by rfl)]
  · have harg1 : -sEmptyStream.centerX / sEmptyStream.scale = (-1 / 2 : ℚ) := by
      norm_num [sEmptyStream, sPan]
    have harg2 : (sEmptyStream.canvasWidth - sEmptyStream.centerX) / sEmptyStream.scale =
        (3 / 2 : ℚ) := by
      norm_num [sEmptyStream, sPan]
    rw [harg1, harg2]
    exact calculatePoints_left_ne_nil (by norm_num [sEmptyStream, sPan])
      (by simp [fNormal]) (by simp [fNormal]; norm_num)

/-- C3 (amended): with a nonempty point stream, a zoom-in clears the stream
and resamples the whole new visible range per registered function, while a
zoom-out keeps the stream and samples exactly the two newly exposed edge
ranges, `[newBegin, oldBegin]` prepended and `[oldEnd, newEnd]` appended. -/
theorem c3_amended_zoom_resample (s : RenderState) (hne : s.displayedPoints ≠ []) :
    ((zoomFunctionImage s ZoomDirection.ZOOM_IN).1.displayedPoints = [] ∧
     (zoomFunctionImage s ZoomDirection.ZOOM_IN).2 =
       s.functionList.flatMap (fun func => calculatePoints s func (-s.centerX / s.scale)
         ((s.canvasWidth - s.centerX) / s.scale) MovingDirection.LEFT)) ∧
    ((zoomFunctionImage s ZoomDirection.ZOOM_OUT).1.displayedPoints = s.displayedPoints ∧
     (zoomFunctionImage s ZoomDirection.ZOOM_OUT).2 =
       s.functionList.flatMap (fun func =>
         calculatePoints s func (-s.centerX / s.scale) s.cameraPosition.1
           MovingDirection.RIGHT ++
         calculatePoints s func s.cameraPosition.2 ((s.canvasWidth - s.centerX) / s.scale)
           MovingDirection.LEFT)) :=
  ⟨⟨zoomFunctionImage_in_displayedPoints s hne, zoomFunctionImage_in_reqs s hne⟩,
   zoomFunctionImage_out_displayedPoints s, zoomFunctionImage_out_reqs s hne⟩

/-- Witness for C3 (amended): the zoom-in clause at `sPan`. -/
theorem c3_witness :
    (zoomFunctionImage sPan ZoomDirection.ZOOM_IN).1.displayedPoints = [] ∧
    (zoomFunctionImage sPan ZoomDirection.ZOOM_IN).2 =
      sPan.functionList.flatMap (fun func => calculatePoints sPan func
        (-sPan.centerX / sPan.scale) ((sPan.canvasWidth - sPan.centerX) / sPan.scale)
        MovingDirection.LEFT) :=
  (c3_amended_zoom_resample sPan (by simp [sPan])).1

/-- C6: a wheel event adjusts the scale by `7 / spacing` (down for `dy > 0`,
up otherwise) and recenters so that the cursor's coordinate-space position is
unchanged by the zoom. -/
theorem c6_wheel_cursor_fixed (s : RenderState) (dy : ℚ) (hs : s.scale ≠ 0)
    (hs' : (if dy > 0 then s.scale - 7 / s.spacing else s.scale + 7 / s.spacing) ≠ 0) :
    (handleWheel s dy).1.scale =
      (if dy > 0 then s.scale - 7 / s.spacing else s.scale + 7 / s.spacing) ∧
    pointToCoordinates (handleWheel s dy).1
        ⟨(handleWheel s dy).1.mousePointX, (handleWheel s dy).1.mousePointY⟩ =
      pointToCoordinates s ⟨s.mousePointX, s.mousePointY⟩ := by
  have hws : wheelScale s dy =
      (if dy > 0 then s.scale - 7 / s.spacing else s.scale + 7 / s.spacing) := rfl
  constructor
  · rw [handleWheel_fst_scale, hws]
  · have hns : wheelScale s dy ≠ 0 := by
      rw [hws]
      exact hs'
    simp only [pointToCoordinates]
    rw [handleWheel_fst_mousePointX, handleWheel_fst_mousePointY,
      handleWheel_fst_centerX, handleWheel_fst_centerY, handleWheel_fst_scale,
      Point.mk.injEq]
    constructor
    · field_simp
      ring
    · field_simp
      ring

/-- Witness for C6: a wheel-down event at `sBase` (scale 100 → 93). -/
theorem c6_witness :
    (handleWheel sBase 1).1.scale =
      (if (1 : ℚ) > 0 then sBase.scale - 7 / sBase.spacing
       else sBase.scale + 7 / sBase.spacing) ∧
    pointToCoordinates (handleWheel sBase 1).1
        ⟨(handleWheel sBase 1).1.mousePointX, (handleWheel sBase 1).1.mousePointY⟩ =
      pointToCoordinates sBase ⟨sBase.mousePointX, sBase.mousePointY⟩ :=
  c6_wheel_cursor_fixed sBase 1 (by norm_num [sBase])
    (by rw [if_pos (by norm_num)]; norm_num [sBase])

/-- C7: a compile-and-set response replaces the function at `index` with a
new one carrying the old function's id, leaves every other slot unchanged,
clears the point stream and resamples every registered function over the
full current visible range. -/
theorem c7_compileAndSet_replaces (co si : ℚ → ℚ) (s : RenderState) (index : ℕ)
    (mode : FunctionInputtingType) (root : RootToken) (oldF : Function)
    (h : s.functionList.get? index = some oldF) :
    ∃ s' reqs,
      handleCalculatingWorkerMessaging co si s (CalcResponse.compileAndSet index mode root) =
        some (s', reqs) ∧
      s'.functionList = s.functionList.set index ⟨oldF.id, mode, root⟩ ∧
      s'.functionList[index]? = some ⟨oldF.id, mode, root⟩ ∧
      (∀ j, j ≠ index → s'.functionList[j]? = s.functionList[j]?) ∧
      s'.displayedPoints = [] ∧
      reqs = s'.functionList.flatMap (fun func =>
        calculatePoints s' func (visibleBeginX s') (visibleEndX s') MovingDirection.LEFT) := by
  obtain ⟨hlt, -⟩ := List.get?_eq_some.mp h
  apply Exists.intro ({ s with functionList := s.functionList.set index (Function.mk oldF.id mode root), displayedPoints := [] })
  apply Exists.intro ((fullyRefreshFunctions { s with functionList := s.functionList.set index (Function.mk oldF.id mode root) }).2)
  refine ⟨?_, rfl, ?_, ?_, rfl, ?_⟩
  · simp only [handleCalculatingWorkerMessaging, h]
    rfl
  · exact List.getElem?_set_eq_of_lt _ hlt
  · intro j hj
    exact List.getElem?_set_ne hj.symm
  · exact fullyRefreshFunctions_snd _

/-- Witness for C7: replacing the single function of `sBase` at index 0. -/
theorem c7_witness :
    ∃ s' reqs,
      handleCalculatingWorkerMessaging (fun _ => 0) (fun _ => 0) sBase
        (CalcResponse.compileAndSet 0 FunctionInputtingType.POLAR ⟨7⟩) =
        some (s', reqs) ∧
      s'.functionList = sBase.functionList.set 0 ⟨fNormal.id, FunctionInputtingType.POLAR, ⟨7⟩⟩ ∧
      s'.functionList[0]? = some ⟨fNormal.id, FunctionInputtingType.POLAR, ⟨7⟩⟩ ∧
      (∀ j, j ≠ 0 → s'.functionList[j]? = sBase.functionList[j]?) ∧
      s'.displayedPoints = [] ∧
      reqs = s'.functionList.flatMap (fun func =>
        calculatePoints s' func (visibleBeginX s') (visibleEndX s') MovingDirection.LEFT) :=
  c7_compileAndSet_replaces (fun _ => 0) (fun _ => 0) sBase 0
    FunctionInputtingType.POLAR ⟨7⟩ fNormal rfl

end Calcium
